import Mathlib

/-!
Verification of the Amida sales-agent prospect lifecycle and outreach
sequencing engine.

This file gives a shallow embedding, in Lean, of the engine's data model and
operations (`amida_agent/scout/scorer.py`, `amida_agent/scout/pipeline.py`,
`amida_agent/outreach/sequence_manager.py`, `amida_agent/outreach/email_sender.py`,
`amida_agent/web/routes/approve.py`, `amida_agent/config.py`,
`amida_agent/models.py`) and proves properties about it.

Modelling conventions:
* The relational store is a `DB` record of lists; SQL queries become list
  filters/folds in insertion order (SQLite returns rows in rowid order for the
  simple queries used here).
* Monetary-free float scores in the source are all multiples of 0.05 and
  `round(x, 2)` is applied to them, so scores are modelled exactly as integer
  hundredths (e.g. a threshold of 0.40 is the natural number 40).
* Timestamps are integer Unix seconds; `timedelta.days` is floor division by
  86400 (`Int.fdiv`).
* External services (Proxycurl, Hunter, Smartlead HTTP, Anthropic composition)
  are parameters supplied through environment records; an exception raised by a
  call is the `none`/`Except.error` case.
-/

namespace Amida

/-- Prefix test on character lists (`needle` starts `hay`). -/
def listStarts : List Char → List Char → Bool
  | [], _ => true
  | _ :: _, [] => false
  | a :: as, b :: bs => a == b && listStarts as bs

/-- Python substring containment `needle in hay`, on character lists. -/
def subIn (needle : List Char) : List Char → Bool
  | [] => listStarts needle []
  | c :: cs => listStarts needle (c :: cs) || subIn needle cs

/-- Python `needle in hay` on strings. -/
def strIn (needle hay : String) : Bool :=
  subIn needle.toList hay.toList

/-- Python `str.lower()` (ASCII-adequate for the title data handled here). -/
def pyLower (s : List Char) : List Char := s.map Char.toLower

/-- Drop leading whitespace from a character list. -/
def dropLeadingWs : List Char → List Char
  | [] => []
  | c :: cs => if c.isWhitespace then dropLeadingWs cs else c :: cs

/-- Python `str.strip()`: drop whitespace at both ends. -/
def pyStrip (s : List Char) : List Char :=
  (dropLeadingWs (dropLeadingWs s.reverse).reverse)

/-- Python truthiness of an `Optional[str]`: `None` and `""` are falsy;
`a or b` on such a value. -/
def pyOrStr (a : Option String) (b : String) : String :=
  match a with
  | some s => if s == "" then b else s
  | none => b

/- ### Scorer (`amida_agent/scout/scorer.py`) -/

/-- `_STRONG_TITLES`. -/
def STRONG_TITLES : List String :=
  ["head of ai", "head of data", "head of machine learning",
   "chief data officer", "chief analytics officer", "chief ai officer",
   "vp of ai", "vp of data", "vp data", "vp ai",
   "director of ai", "director of data science", "director of analytics",
   "ai lead", "data science lead", "ml lead"]

/-- `_MODERATE_TITLES`. -/
def MODERATE_TITLES : List String :=
  ["cto", "chief technology officer",
   "head of analytics", "head of engineering",
   "data engineer", "machine learning engineer",
   "data strategy", "digital transformation",
   "partner", "operating partner"]

/-- The alternatives of the `_AI_KEYWORDS` regex; `.` is the regex wildcard. -/
def AI_KEYWORD_PATTERNS : List String :=
  ["ai", "artificial.intelligence", "machine.learning", "data.science",
   "ml", "nlp", "deep.learning", "analytics", "data.platform", "data.strategy"]

/-- The seniority keywords of the bonus check in `pre_score`. -/
def SENIORITY_KEYWORDS : List String :=
  ["head", "chief", "vp", "director", "lead", "partner"]

/-- `_SOURCE_WEIGHTS`, in integer hundredths. -/
def SOURCE_WEIGHTS : List (String × Nat) :=
  [("people_search", 25), ("news_monitor", 15), ("job_monitor", 10), ("manual", 20)]

/-- Regex word character (`\w`, ASCII part). -/
def isWordChar (c : Char) : Bool := c.isAlphanum || c == '_'

/-- Match one regex alternative (letters plus the `.` wildcard, which matches
any character except a newline) at the head of `hay`; returns the rest. -/
def patMatch : List Char → List Char → Option (List Char)
  | [], hay => some hay
  | _ :: _, [] => none
  | p :: ps, c :: cs =>
    if p == '.' then (if c == '\n' then none else patMatch ps cs)
    else if p == c then patMatch ps cs
    else none

/-- `\b` holds at a position whose neighbour is absent or a non-word char
(all alternatives start and end with word characters). -/
def boundaryOk : Option Char → Bool
  | none => true
  | some c => !isWordChar c

/-- One alternative matches at the current position with `\b` on both sides. -/
def matchesAt (pat : List Char) (prev : Option Char) (hay : List Char) : Bool :=
  match patMatch pat hay with
  | none => false
  | some rest =>
    boundaryOk prev &&
      (match rest with
       | [] => true
       | c :: _ => !isWordChar c)

/-- `re.search` over all positions for a set of `\b(alt|…)\b` alternatives. -/
def searchFrom (pats : List (List Char)) : Option Char → List Char → Bool
  | prev, [] => pats.any (fun p => matchesAt p prev [])
  | prev, c :: cs =>
    pats.any (fun p => matchesAt p prev (c :: cs)) || searchFrom pats (some c) cs

/-- `_AI_KEYWORDS.search(title_lower)` truthiness. -/
def aiKeywordsSearch (s : List Char) : Bool :=
  searchFrom (AI_KEYWORD_PATTERNS.map String.toList) none s

/-- `pre_score` from `scout/scorer.py`, scores in integer hundredths.
Returns the capped total and the itemized breakdown. -/
def pre_score (title company source : String)
    (has_hiring_signal has_news_mention : Bool) : Nat × List (String × Nat) :=
  let _ := company
  let title_lower := pyStrip (pyLower title.toList)
  let base :=
    if STRONG_TITLES.any (fun t => subIn t.toList title_lower) then 40
    else if MODERATE_TITLES.any (fun t => subIn t.toList title_lower) then 20
    else if aiKeywordsSearch title_lower then 25
    else 0
  let title_score :=
    if SENIORITY_KEYWORDS.any (fun kw => subIn kw.toList title_lower) then min (base + 10) 40
    else base
  let source_score := (((SOURCE_WEIGHTS.find? (fun p => p.fst == source)).map (·.snd)).getD 5)
  let hiring_score := if has_hiring_signal then 20 else 0
  let news_score := if has_news_mention then 15 else 0
  let total := min (title_score + source_score + hiring_score + news_score) 100
  (total,
   [("title_relevance", title_score), ("source_quality", source_score),
    ("hiring_signal", hiring_score), ("news_buzz", news_score)])

/-- `should_enrich`: compare against the configured threshold (hundredths). -/
def should_enrich (enrichment_threshold : Nat) (score : Nat) : Bool :=
  score ≥ enrichment_threshold

/-- `should_notify`. -/
def should_notify (notification_threshold : Nat) (score : Nat) : Bool :=
  score ≥ notification_threshold

example : (pre_score "Head of AI" "" "people_search" false false).fst = 65 := by decide
example : (pre_score "Janitor" "" "unknown" false false).fst = 5 := by decide
example : (pre_score "ML Platform Architect" "" "" false false).fst = 30 := by decide

/-- C7: every pre-score total lies in [0,1] (0 to 100 hundredths), and turning
the hiring-signal or news-mention boolean from false to true, other inputs
fixed, never decreases it. -/
theorem pre_score_bounds_and_monotone :
    ∀ title company source h n,
      (pre_score title company source h n).fst ≤ 100 ∧
      (pre_score title company source false n).fst ≤
        (pre_score title company source true n).fst ∧
      (pre_score title company source h false).fst ≤
        (pre_score title company source h true).fst := by
  intro title company source h n
  simp only [pre_score]
  refine ⟨Nat.min_le_right _ _, ?_, ?_⟩
  · exact min_le_min (by simp) (le_refl _)
  · exact min_le_min (by simp) (le_refl _)

/- ### Data model (`amida_agent/models.py`) -/

/-- `ProspectStatus`. -/
inductive ProspectStatus
  | new | researching | ready | drafted | approved | sent
  | replied | meeting | rejected | paused
deriving DecidableEq, Repr

/-- `Channel`. -/
inductive Channel
  | email | linkedin
deriving DecidableEq, Repr

/-- `RoleType`. -/
inductive RoleType
  | ai_lead | data_lead | cto | cdo | head_of_analytics | other
deriving DecidableEq, Repr

/-- `PEFirm` (the fields the engine reads). -/
structure PEFirm where
  id : Nat
  name : String
  website : String
  linkedin_url : String
deriving DecidableEq, Repr

/-- `Prospect` (the fields the engine reads or writes). -/
structure Prospect where
  id : Nat
  pe_firm_id : Option Nat
  first_name : String
  last_name : String
  full_name : String
  title : String
  role_type : RoleType
  linkedin_url : String
  email : Option String
  relevance_score : Nat
  dossier : String
  status : ProspectStatus
  source : String
  created_at : Int
  updated_at : Int
deriving DecidableEq, Repr

/-- `OutreachDraft`. `approved` is the approval tri-state:
`none` = pending, `some true` = approved, `some false` = rejected. -/
structure OutreachDraft where
  id : Nat
  prospect_id : Nat
  channel : Channel
  sequence_step : Nat
  subject : String
  body : String
  approved : Option Bool
  approved_at : Option Int
  edited_body : Option String
  rejection_reason : String
  smartlead_campaign_id : Option String
  smartlead_lead_id : Option String
  created_at : Int
  updated_at : Int
deriving DecidableEq, Repr

/-- `ActivityLog` (append-only audit trail). -/
structure ActivityLog where
  prospect_id : Option Nat
  action : String
  channel : Option Channel
  details : String
  created_at : Int
deriving DecidableEq, Repr

/-- The relational store: each table as a list in rowid (insertion) order,
plus the autoincrement counters. -/
structure DB where
  firms : List PEFirm
  prospects : List Prospect
  drafts : List OutreachDraft
  activities : List ActivityLog
  next_prospect_id : Nat
  next_draft_id : Nat
deriving DecidableEq, Repr

/-- `session.get(Prospect, id)`. -/
def getProspect (db : DB) (pid : Nat) : Option Prospect :=
  db.prospects.find? (fun p => p.id == pid)

/-- `session.get(OutreachDraft, id)`. -/
def getDraft (db : DB) (did : Nat) : Option OutreachDraft :=
  db.drafts.find? (fun d => d.id == did)

/-- Commit an ORM mutation of one prospect row (identified by id). -/
def updateProspect (db : DB) (p : Prospect) : DB :=
  { db with prospects := db.prospects.map (fun q => if q.id == p.id then p else q) }

/-- Commit an ORM mutation of one draft row (identified by id). -/
def updateDraft (db : DB) (d : OutreachDraft) : DB :=
  { db with drafts := db.drafts.map (fun e => if e.id == d.id then d else e) }

/-- `session.add(ActivityLog(...))`. -/
def addActivity (db : DB) (a : ActivityLog) : DB :=
  { db with activities := db.activities ++ [a] }

/-- Engine settings (`amida_agent/config.py`), thresholds in hundredths. -/
structure Settings where
  anthropic_api_key : String
  smartlead_api_key : String
  enrichment_threshold : Nat
  notification_threshold : Nat
  sequence_step_delays : String
  auto_approve_followups : Bool
deriving Repr

/-- Python `raw.split(",")` on character lists. -/
def splitOnComma : List Char → List (List Char)
  | [] => [[]]
  | c :: cs =>
    if c == ',' then [] :: splitOnComma cs
    else
      match splitOnComma cs with
      | r :: rs => (c :: r) :: rs
      | [] => [[c]]

/-- Digit-string accumulator for `int(...)`. -/
def digitsAux : List Char → Nat → Option Nat
  | [], acc => some acc
  | c :: cs, acc =>
    if c.isDigit then digitsAux cs (acc * 10 + (c.toNat - 48)) else none

/-- A non-empty all-digit string to its value. -/
def digitsToNat : List Char → Option Nat
  | [] => none
  | l => digitsAux l 0

/-- Python `int(s)` on a stripped string: optional sign, then digits. -/
def parseIntChars : List Char → Option Int
  | '-' :: rest => (digitsToNat rest).map (fun n => -(n : Int))
  | '+' :: rest => (digitsToNat rest).map (fun n => (n : Int))
  | l => (digitsToNat l).map (fun n => (n : Int))

/-- `_get_step_delays` / `Settings.step_delays`: parse the comma-separated
delay list, falling back to `[3, 5, 7]` when any part fails to parse. -/
def get_step_delays (raw : String) : List Int :=
  let parts := (splitOnComma raw.toList).map (fun d => parseIntChars (pyStrip d))
  if parts.all Option.isSome then parts.map (fun o => o.getD 0) else [3, 5, 7]

example : get_step_delays "3,5,7" = [3, 5, 7] := by decide
example : get_step_delays "2, 4, 6" = [2, 4, 6] := by decide
example : get_step_delays "invalid" = [3, 5, 7] := by decide

/- ### Smartlead HTTP wrapper (`amida_agent/outreach/email_sender.py`) -/

/-- An HTTP response from the delivery service. -/
structure HttpResponse where
  status : Nat
  body : String
deriving DecidableEq, Repr

/-- Outcome of `_smartlead_request`: parsed body, an immediate
`raise_for_status` error, or the `RuntimeError` after exhausting retries. -/
inductive SmartleadOutcome
  | ok (body : String) (attempt : Nat)
  | httpStatusError (status : Nat)
  | rateLimited (message : String)
deriving DecidableEq, Repr

/-- `max_retries`. -/
def MAX_RETRIES : Nat := 3

/-- The retry loop of `_smartlead_request`. `responses` gives the response to
the request issued on each attempt; `waits` accumulates the backoff sleeps
(seconds), `2 ** attempt` after each 429. A response that is neither 429 nor
2xx raises immediately (`raise_for_status`). -/
def smartleadAttempt (responses : Nat → HttpResponse) (path : String) :
    Nat → Nat → List Nat → SmartleadOutcome × List Nat
  | _, 0, waits =>
    (.rateLimited ("Smartlead API rate limited after " ++ toString MAX_RETRIES
        ++ " retries: " ++ path), waits)
  | attempt, remaining + 1, waits =>
    let resp := responses attempt
    if resp.status == 429 then
      smartleadAttempt responses path (attempt + 1) remaining (waits ++ [2 ^ attempt])
    else if 200 ≤ resp.status ∧ resp.status < 300 then
      (.ok resp.body attempt, waits)
    else
      (.httpStatusError resp.status, waits)

/-- `_smartlead_request` (the retry control flow; key injection and the fixed
0.5 s inter-call delay have no bearing on the modelled outcome). -/
def smartlead_request (responses : Nat → HttpResponse) (path : String) :
    SmartleadOutcome × List Nat :=
  smartleadAttempt responses path 0 MAX_RETRIES []

/-- C9: a 429 response is retried with backoff `2 ^ attempt` seconds up to the
retry ceiling of 3; three rate-limited attempts fail with the `RateLimited`
error naming the path after backoffs [1, 2, 4]; a non-429 non-2xx response
fails immediately with no retry (no backoff waits); a 429 followed by a 2xx
succeeds on the second attempt after a single 1-second backoff. -/
theorem smartlead_request_retry_policy :
    ∀ (responses : Nat → HttpResponse) (path : String),
      ((∀ i, i < MAX_RETRIES → (responses i).status = 429) →
        smartlead_request responses path =
          (.rateLimited ("Smartlead API rate limited after 3 retries: " ++ path),
           [1, 2, 4])) ∧
      ((responses 0).status ≠ 429 →
        ¬(200 ≤ (responses 0).status ∧ (responses 0).status < 300) →
        smartlead_request responses path = (.httpStatusError (responses 0).status, [])) ∧
      ((responses 0).status = 429 →
        200 ≤ (responses 1).status → (responses 1).status < 300 →
        smartlead_request responses path = (.ok (responses 1).body 1, [1])) := by
  intro responses path
  have hmsg : ("Smartlead API rate limited after " ++ toString (3 : Nat)
      ++ " retries: " : String) = "Smartlead API rate limited after 3 retries: " := by decide
  refine ⟨?_, ?_, ?_⟩
  · intro h
    simp [smartlead_request, MAX_RETRIES, smartleadAttempt,
      h 0 (by simp [MAX_RETRIES]), h 1 (by simp [MAX_RETRIES]),
      h 2 (by simp [MAX_RETRIES]), hmsg]
  · intro h429 h2xx
    simp [smartlead_request, MAX_RETRIES, smartleadAttempt, h429, h2xx]
  · intro h429 hlo hhi
    have h1 : (responses 1).status ≠ 429 := by omega
    simp [smartlead_request, MAX_RETRIES, smartleadAttempt, h429, h1, hlo, hhi]

/-- Closed witness for the C9 theorem: a response stream that always returns
429 exhausts the retries. -/
theorem smartlead_request_retry_policy_witness :
    smartlead_request (fun _ => ⟨429, ""⟩) "/campaigns/create" =
      (.rateLimited ("Smartlead API rate limited after 3 retries: /campaigns/create"),
       [1, 2, 4]) := by
  have h := (smartlead_request_retry_policy (fun _ => ⟨429, ""⟩) "/campaigns/create").1
    (fun i _ => rfl)
  simpa using h

/- ### External send adapter (`send_approved_draft`, email_sender.py) -/

/-- External calls made by `send_approved_draft`; `Except.error` models an
exception raised by the HTTP layer (the surrounding session then closes
without committing). -/
structure SendEnv where
  create_campaign : String → Except String String
  add_lead_to_campaign : String → Prospect → String → Except String String
  add_sequence_step : String → Nat → String → String → Int → Except String Unit

/-- `send_approved_draft`: deliver an approved draft via Smartlead. Early
returns (missing credential, missing draft, non-email channel, missing
prospect, missing contact email) leave the store untouched; on success the
Smartlead identifiers are stored on the draft, the prospect advances
`approved → sent`, and an `email_sent` audit entry is appended. The
`details` JSON blob of the audit entry is abbreviated to its step field. -/
def send_approved_draft (env : SendEnv) (st : Settings) (now : Int)
    (db : DB) (draft_id : Nat) : DB :=
  if st.smartlead_api_key == "" then db
  else
    match getDraft db draft_id with
    | none => db
    | some draft =>
      if draft.channel != Channel.email then db
      else
        match getProspect db draft.prospect_id with
        | none => db
        | some prospect =>
          match prospect.email with
          | none => db
          | some em =>
            if em == "" then db
            else
              let subject := draft.subject
              let body := pyOrStr draft.edited_body draft.body
              let campaign_name := "Amida – " ++ prospect.full_name
              -- `if draft.smartlead_campaign_id:` — Python truthiness, so a
              -- stored `""` is not reused and a new campaign is created
              let campaignRes :=
                match draft.smartlead_campaign_id with
                | some cid =>
                  if cid == "" then env.create_campaign campaign_name
                  else Except.ok cid
                | none => env.create_campaign campaign_name
              match campaignRes with
              | .error _ => db
              | .ok campaign_id =>
                let step_delays := get_step_delays st.sequence_step_delays
                let delay :=
                  if draft.sequence_step > 1 ∧ step_delays.length ≥ draft.sequence_step - 1
                  then (step_delays.get? (draft.sequence_step - 2)).getD 0
                  else 0
                match env.add_sequence_step campaign_id draft.sequence_step subject body delay with
                | .error _ => db
                | .ok _ =>
                  let company_name :=
                    match prospect.pe_firm_id with
                    | some fid =>
                      match db.firms.find? (fun f => f.id == fid) with
                      | some f => f.name
                      | none => ""
                    | none => ""
                  -- `if draft.smartlead_lead_id:` — same truthiness check
                  let leadRes :=
                    match draft.smartlead_lead_id with
                    | some lid =>
                      if lid == "" then
                        env.add_lead_to_campaign campaign_id prospect company_name
                      else Except.ok lid
                    | none => env.add_lead_to_campaign campaign_id prospect company_name
                  match leadRes with
                  | .error _ => db
                  | .ok lead_id =>
                    let db1 := updateDraft db { draft with
                      smartlead_campaign_id := some campaign_id,
                      smartlead_lead_id := some lead_id,
                      updated_at := now }
                    let db2 :=
                      if prospect.status = ProspectStatus.approved then
                        updateProspect db1
                          { prospect with status := ProspectStatus.sent, updated_at := now }
                      else db1
                    addActivity db2
                      { prospect_id := some prospect.id, action := "email_sent",
                        channel := some Channel.email,
                        details := "step " ++ toString draft.sequence_step,
                        created_at := now }

/-- C8: `send_approved_draft` returns without mutating any stored record when
the delivery credential is absent, the draft id does not resolve, the draft's
channel is not email, the prospect record is missing, or the prospect lacks a
contact email address. -/
theorem send_approved_draft_noop_cases :
    ∀ (env : SendEnv) (st : Settings) (now : Int) (db : DB) (draft_id : Nat),
      (st.smartlead_api_key = "" ∨
       getDraft db draft_id = none ∨
       (∃ d, getDraft db draft_id = some d ∧
         (d.channel ≠ Channel.email ∨
          getProspect db d.prospect_id = none ∨
          (∃ p, getProspect db d.prospect_id = some p ∧
            (p.email = none ∨ p.email = some ""))))) →
      send_approved_draft env st now db draft_id = db := by
  intro env st now db draft_id h
  rcases h with hkey | hdraft | ⟨d, hd, hcase⟩
  · simp [send_approved_draft, hkey]
  · simp [send_approved_draft, hdraft]
  · rcases hcase with hch | hpro | ⟨p, hp, hem⟩
    · by_cases hkey : st.smartlead_api_key = ""
      · simp [send_approved_draft, hkey]
      · simp [send_approved_draft, hkey, hd, hch]
    · by_cases hkey : st.smartlead_api_key = ""
      · simp [send_approved_draft, hkey]
      · simp [send_approved_draft, hkey, hd, hpro]
    · by_cases hkey : st.smartlead_api_key = ""
      · simp [send_approved_draft, hkey]
      · rcases hem with hem | hem
        all_goals
          by_cases hch : d.channel = Channel.email
          · simp [send_approved_draft, hkey, hd, hch, hp, hem]
          · simp [send_approved_draft, hkey, hd, hch]

/-- Closed witness for the C8 theorem: with no delivery credential the store
is unchanged. -/
theorem send_approved_draft_noop_cases_witness :
    send_approved_draft
      ⟨fun _ => .ok "c", fun _ _ _ => .ok "l", fun _ _ _ _ _ => .ok ()⟩
      ⟨"", "", 40, 65, "3,5,7", false⟩ 0
      ⟨[], [], [], [], 1, 1⟩ 1 = ⟨[], [], [], [], 1, 1⟩ :=
  send_approved_draft_noop_cases _ _ _ _ _ (Or.inl rfl)

/- ### Approval routes (`amida_agent/web/routes/approve.py`) -/

/-- The `prospect and prospect.status == X` conditional status advance shared
by the approve and reject routes. -/
def advanceProspectIf (db : DB) (pid : Nat) (fromSt toSt : ProspectStatus)
    (now : Int) : DB :=
  match getProspect db pid with
  | some p =>
    if p.status = fromSt then
      updateProspect db { p with status := toSt, updated_at := now }
    else db
  | none => db

/-- The session block of the `approve_draft` POST route: unconditionally set
the tri-state to approved with timestamp, record the optional subject/body
edits (Python truthiness: present and non-blank after strip), advance the
owning prospect `drafted → approved`, append the audit entry, commit. -/
def approve_draft_session (draft_id : Nat) (edited_subject edited_body : Option String)
    (now : Int) (db : DB) : DB :=
  match getDraft db draft_id with
  | none => db
  | some draft =>
    let draft1 := { draft with approved := some true, approved_at := some now }
    let draft2 :=
      match edited_body with
      | some b =>
        if b != "" && pyStrip b.toList != [] then
          { draft1 with edited_body := some (String.mk (pyStrip b.toList)) }
        else draft1
      | none => draft1
    let draft3 :=
      match edited_subject with
      | some s =>
        if s != "" && pyStrip s.toList != [] then
          { draft2 with subject := String.mk (pyStrip s.toList) }
        else draft2
      | none => draft2
    let db1 := updateDraft db { draft3 with updated_at := now }
    let db2 := advanceProspectIf db1 draft.prospect_id
      ProspectStatus.drafted ProspectStatus.approved now
    addActivity db2
      { prospect_id := some draft.prospect_id, action := "draft_approved",
        channel := some draft.channel,
        details := "Step " ++ toString draft.sequence_step ++ " approved",
        created_at := now }

/-- The full `approve_draft` route: the session block, then (after the
fire-and-forget notification) the synchronous send trigger for email-channel
drafts. -/
def approve_draft (env : SendEnv) (st : Settings) (draft_id : Nat)
    (edited_subject edited_body : Option String) (now : Int) (db : DB) : DB :=
  match getDraft db draft_id with
  | none => db
  | some draft =>
    let db1 := approve_draft_session draft_id edited_subject edited_body now db
    if draft.channel = Channel.email then send_approved_draft env st now db1 draft.id
    else db1

/-- The `reject_draft` POST route: unconditionally set the tri-state to
rejected with the given reason, advance the owning prospect
`drafted → rejected`, append the audit entry. -/
def reject_draft (draft_id : Nat) (reason : String) (now : Int) (db : DB) : DB :=
  match getDraft db draft_id with
  | none => db
  | some draft =>
    let db1 := updateDraft db
      { draft with approved := some false, rejection_reason := reason, updated_at := now }
    let db2 := advanceProspectIf db1 draft.prospect_id
      ProspectStatus.drafted ProspectStatus.rejected now
    addActivity db2
      { prospect_id := some draft.prospect_id, action := "draft_rejected",
        channel := some draft.channel,
        details := pyOrStr (some reason) "No reason given",
        created_at := now }

/-- The AI composition call (`amida_agent/ai/composer.py`), supplied as an
environment: dossier, sequence step, optional previous email; `Except.error`
models a raised exception (no credential, remote failure). -/
structure ComposeEnv where
  compose_email : String → Nat → Option String → Except String (String × String)

/-- The `regenerate_draft` POST route: 404/400/500 early returns leave the
store untouched; otherwise mark the target draft rejected with reason
"Regenerated" and add a fresh pending draft for the same (prospect, channel,
step). A composition exception aborts the session before commit, so the
rejection marking is only persisted when composition succeeds. -/
def regenerate_draft (env : ComposeEnv) (st : Settings) (draft_id : Nat)
    (now : Int) (db : DB) : DB :=
  match getDraft db draft_id with
  | none => db
  | some draft =>
    match getProspect db draft.prospect_id with
    | none => db
    | some prospect =>
      if prospect.dossier == "" then db
      else if st.anthropic_api_key == "" then db
      else
        match env.compose_email prospect.dossier draft.sequence_step none with
        | .error _ => db
        | .ok (subject, body) =>
          let db1 := updateDraft db
            { draft with
              approved := some false,
              rejection_reason := "Regenerated",
              updated_at := now }
          let db2 := { db1 with
            drafts := db1.drafts ++ [{
              id := db1.next_draft_id, prospect_id := prospect.id,
              channel := draft.channel, sequence_step := draft.sequence_step,
              subject := subject, body := body,
              approved := none, approved_at := none, edited_body := none,
              rejection_reason := "", smartlead_campaign_id := none,
              smartlead_lead_id := none, created_at := now, updated_at := now }],
            next_draft_id := db1.next_draft_id + 1 }
          addActivity db2
            { prospect_id := some prospect.id, action := "draft_regenerated",
              channel := some draft.channel,
              details := "Step " ++ toString draft.sequence_step ++ " regenerated",
              created_at := now }

/- Shared concrete fixtures used by counterexamples and witnesses. -/

/-- Fixture prospect: sent status, non-empty dossier, contactable. -/
def exProspect : Prospect :=
  { id := 1, pe_firm_id := none, first_name := "Erik", last_name := "L",
    full_name := "Erik L", title := "Head of AI", role_type := RoleType.ai_lead,
    linkedin_url := "https://linkedin.com/in/erik", email := some "erik@example.com",
    relevance_score := 85, dossier := "dossier text", status := ProspectStatus.sent,
    source := "people_search", created_at := 0, updated_at := 0 }

/-- Fixture draft: step 1, email channel, already approved at time 100. -/
def exApprovedDraft : OutreachDraft :=
  { id := 1, prospect_id := 1, channel := Channel.email, sequence_step := 1,
    subject := "s", body := "b", approved := some true, approved_at := some 100,
    edited_body := none, rejection_reason := "", smartlead_campaign_id := none,
    smartlead_lead_id := none, created_at := 0, updated_at := 0 }

/-- Fixture store holding the one prospect and its approved draft. -/
def exDB : DB :=
  { firms := [], prospects := [exProspect], drafts := [exApprovedDraft],
    activities := [], next_prospect_id := 2, next_draft_id := 2 }

/-- C1 counterexample: the fixture draft is already decided (approved), yet a
`reject_draft` call overwrites the stored decision to rejected and mutates the
store — the second decision call is not a no-op and the decision is not set
exactly once. -/
theorem approval_not_write_once_counterexample :
    (getDraft exDB 1).map (fun d => d.approved) = some (some true) ∧
    (getDraft (reject_draft 1 "changed my mind" 200 exDB) 1).map (fun d => d.approved)
      = some (some false) ∧
    reject_draft 1 "changed my mind" 200 exDB ≠ exDB := by
  refine ⟨by decide, by decide, by decide⟩

/-- `addActivity` leaves the drafts table unchanged. -/
theorem getDraft_addActivity (db : DB) (a : ActivityLog) (j : Nat) :
    getDraft (addActivity db a) j = getDraft db j := rfl

/-- `updateProspect` leaves the drafts table unchanged. -/
theorem getDraft_updateProspect (db : DB) (p : Prospect) (j : Nat) :
    getDraft (updateProspect db p) j = getDraft db j := rfl

/-- `advanceProspectIf` leaves the drafts table unchanged. -/
theorem getDraft_advanceProspectIf (db : DB) (pid : Nat) (a b : ProspectStatus)
    (now : Int) (j : Nat) :
    getDraft (advanceProspectIf db pid a b now) j = getDraft db j := by
  unfold advanceProspectIf
  split
  · split <;> rfl
  · rfl

/-- Replacing, by id, the row that `find?` returns makes `find?` return the
replacement. -/
theorem find?_id_update (j : Nat) (d e : OutreachDraft) (hid : e.id = d.id) :
    ∀ l : List OutreachDraft, l.find? (fun x => x.id == j) = some d →
      (l.map (fun x => if x.id == e.id then e else x)).find? (fun x => x.id == j)
        = some e := by
  intro l hl
  have hdj : d.id = j := by
    have h1 := List.find?_some hl
    simpa using h1
  induction l with
  | nil => simp at hl
  | cons a t ih =>
    by_cases ha : (a.id == j) = true
    · have hcons : (a :: t).find? (fun x => x.id == j) = some a :=
        List.find?_cons_of_pos t ha
      rw [hcons] at hl
      have had : a = d := Option.some.inj hl
      subst had
      have h1 : (a.id == e.id) = true := by simp [hid]
      have h3 : (e.id == j) = true := by simp [hid, hdj]
      have hcons2 : (e :: t.map (fun x => if x.id == e.id then e else x)).find?
          (fun x => x.id == j) = some e :=
        List.find?_cons_of_pos _ h3
      simp only [List.map_cons, if_pos h1]
      exact hcons2
    · have hcons : (a :: t).find? (fun x => x.id == j) = t.find? (fun x => x.id == j) :=
        List.find?_cons_of_neg t ha
      rw [hcons] at hl
      have ht := ih hl
      have h2 : ¬ ((a.id == e.id) = true) := by
        simp only [hid, hdj, beq_iff_eq] at ha ⊢
        exact ha
      have hcons2 : (a :: t.map (fun x => if x.id == e.id then e else x)).find?
          (fun x => x.id == j) = (t.map (fun x => if x.id == e.id then e else x)).find?
          (fun x => x.id == j) :=
        List.find?_cons_of_neg _ ha
      simp only [List.map_cons, if_neg h2]
      rw [hcons2]
      exact ht

/-- `updateDraft` with a row of the same id as the one `getDraft` finds makes
`getDraft` return the new row. -/
theorem getDraft_updateDraft (db : DB) (d e : OutreachDraft) (j : Nat)
    (hd : getDraft db j = some d) (hid : e.id = d.id) :
    getDraft (updateDraft db e) j = some e :=
  find?_id_update j d e hid db.drafts hd

/-- C1 (amended): the approval endpoints do not guard on a prior decision.
On any draft id that resolves, `reject_draft` unconditionally stores the
decision rejected and `approve_draft_session` unconditionally stores the
decision approved, overwriting whatever tri-state was there before (so a
second approve/reject call is an overwrite, not a no-op). -/
theorem approve_reject_overwrite_decision :
    ∀ (draft_id : Nat) (reason : String) (es eb : Option String) (now : Int)
      (db : DB) (d : OutreachDraft),
      getDraft db draft_id = some d →
      ((getDraft (reject_draft draft_id reason now db) draft_id).map
          (fun x => x.approved) = some (some false)) ∧
      ((getDraft (approve_draft_session draft_id es eb now db) draft_id).map
          (fun x => x.approved) = some (some true)) := by
  intro draft_id reason es eb now db d hd
  constructor
  · simp only [reject_draft, hd]
    rw [getDraft_addActivity, getDraft_advanceProspectIf]
    rw [getDraft_updateDraft db d]
    all_goals first | exact hd | rfl
  · simp only [approve_draft_session, hd]
    rw [getDraft_addActivity, getDraft_advanceProspectIf]
    rcases eb with _ | b <;> rcases es with _ | s <;> dsimp only <;>
      (try split_ifs) <;>
      (rw [getDraft_updateDraft db d]
       all_goals first | exact hd | rfl)

/-- Closed witness for the amended C1 theorem at the fixture store. -/
theorem approve_reject_overwrite_decision_witness :
    ((getDraft (reject_draft 1 "r" 200 exDB) 1).map (fun x => x.approved)
        = some (some false)) ∧
    ((getDraft (approve_draft_session 1 none none 200 exDB) 1).map
        (fun x => x.approved) = some (some true)) :=
  approve_reject_overwrite_decision 1 "r" none none 200 exDB exApprovedDraft (by decide)

/- ### Sequence manager (`amida_agent/outreach/sequence_manager.py`) -/

/-- `MAX_SEQUENCE_STEPS`. -/
def MAX_SEQUENCE_STEPS : Nat := 4

/-- A Smartlead lead-status payload: the fields `_has_reply` inspects (an
empty payload has all fields false/zero). -/
structure SLStatus where
  replied : Bool
  reply_count : Nat
  is_replied : Bool
deriving DecidableEq, Repr

/-- `_has_reply`. -/
def has_reply (s : SLStatus) : Bool :=
  s.replied || decide (s.reply_count > 0) || s.is_replied

/-- External calls made during a scheduling pass. A `none` from
`fetch_lead_status` models a raised exception, which the pass catches and
treats as "no reply"; `compose_email` takes dossier, step and the optional
previous email. -/
structure SeqEnv where
  fetch_lead_status : String → String → Option SLStatus
  compose_email : String → Nat → Option String → Except String (String × String)

/-- First row of an `order_by sequence_step desc` query: the maximal step,
ties broken toward the earlier row (rowid order). -/
def maxByStep : List OutreachDraft → Option OutreachDraft
  | [] => none
  | d :: ds =>
    match maxByStep ds with
    | none => some d
    | some e => if e.sequence_step > d.sequence_step then some e else some d

/-- The query for the latest approved email draft of a prospect
(`approved.is_(True)`, `order_by sequence_step desc`, first row). -/
def latestApprovedEmailDraft (db : DB) (pid : Nat) : Option OutreachDraft :=
  maxByStep (db.drafts.filter (fun d =>
    d.prospect_id == pid && d.channel == Channel.email && d.approved == some true))

/-- First row of an `order_by approved_at desc` query: the maximal
`approved_at` (SQLite sorts NULLs last under DESC), ties broken toward the
earlier row. -/
def maxByApprovedAt : List OutreachDraft → Option OutreachDraft
  | [] => none
  | d :: ds =>
    match maxByApprovedAt ds with
    | none => some d
    | some e =>
      match e.approved_at, d.approved_at with
      | some te, some td => if te > td then some e else some d
      | some _, none => some e
      | none, _ => some d

/-- `_days_since_last_send`: days (floor) since the most recent approval
timestamp of an approved email draft; 999 when there is none. Python
`timedelta.days` floors, which is `Int.fdiv` by 86400. -/
def days_since_last_send (db : DB) (pid : Nat) (now : Int) : Int :=
  match maxByApprovedAt (db.drafts.filter (fun d =>
      d.prospect_id == pid && d.channel == Channel.email && d.approved == some true)) with
  | none => 999
  | some latest =>
    match latest.approved_at with
    | none => 999
    | some t => Int.fdiv (now - t) 86400

/-- The pending-next-step query of the pass (`approved.is_(None)`). -/
def pendingNextExists (db : DB) (pid step : Nat) : Bool :=
  db.drafts.any (fun d =>
    d.prospect_id == pid && d.channel == Channel.email &&
    d.sequence_step == step && d.approved == none)

/-- The reply poll of the pass: only when the latest draft carries both
delivery identifiers and they are Python-truthy (`if campaign_id and
lead_id:` — a stored `None` or `""` skips the poll); a poll exception is
caught and treated as no reply. -/
def replyDetected (env : SeqEnv) (latest : OutreachDraft) : Bool :=
  match latest.smartlead_campaign_id, latest.smartlead_lead_id with
  | some cid, some lid =>
    if cid == "" || lid == "" then false
    else
      match env.fetch_lead_status cid lid with
      | some status => has_reply status
      | none => false
  | _, _ => false

/-- `handle_reply` (within the pass's session): mark the prospect replied and
append the audit entry; a missing prospect only logs. -/
def handle_reply (db : DB) (pid : Nat) (now : Int) : DB :=
  match getProspect db pid with
  | none => db
  | some prospect =>
    addActivity
      (updateProspect db
        { prospect with status := ProspectStatus.replied, updated_at := now })
      { prospect_id := some pid, action := "reply_received",
        channel := some Channel.email, details := "previous_status sent",
        created_at := now }

/-- Per-prospect outcome of one pass iteration. -/
inductive SeqOutcome
  | composedOne | repliedOne | skippedOne
deriving DecidableEq, Repr

/-- `delay_needed`: `step_delays[step - 1]` when `step <= len(step_delays)`,
else 7. (Engine-created steps are always ≥ 1, so the Python negative-index
edge at step 0 is unreachable.) -/
def delayNeeded (delays : List Int) (step : Nat) : Int :=
  if step ≤ delays.length then (delays.get? (step - 1)).getD 7 else 7

/-- The loop body of `check_sequence_progression` for one sent prospect:
skip when there is no approved email draft, when the sequence is exhausted,
when a pending next-step draft exists, when the delay has not elapsed, when
the dossier or AI credential is missing, or when composition raises; mark
replied when the delivery poll reports a reply; otherwise append the new
next-step draft (pending, or approved when auto-approve is configured)
carrying forward the delivery identifiers. -/
def processSentProspect (env : SeqEnv) (st : Settings) (now : Int)
    (db : DB) (p : Prospect) : DB × SeqOutcome :=
  match latestApprovedEmailDraft db p.id with
  | none => (db, .skippedOne)
  | some latest =>
    if latest.sequence_step ≥ MAX_SEQUENCE_STEPS then (db, .skippedOne)
    else
      let next_step := latest.sequence_step + 1
      if pendingNextExists db p.id next_step then (db, .skippedOne)
      else
        let days_since := days_since_last_send db p.id now
        let delay_needed :=
          delayNeeded (get_step_delays st.sequence_step_delays) latest.sequence_step
        if days_since < delay_needed then (db, .skippedOne)
        else if replyDetected env latest then (handle_reply db p.id now, .repliedOne)
        else if p.dossier == "" || st.anthropic_api_key == "" then (db, .skippedOne)
        else
          let previous_body := pyOrStr latest.edited_body latest.body
          let previous_email := "Subject: " ++ latest.subject ++ "\n\n" ++ previous_body
          match env.compose_email p.dossier next_step (some previous_email) with
          | .error _ => (db, .skippedOne)
          | .ok (subject, body) =>
            let new_draft : OutreachDraft :=
              { id := db.next_draft_id, prospect_id := p.id, channel := Channel.email,
                sequence_step := next_step, subject := subject, body := body,
                approved := if st.auto_approve_followups then some true else none,
                approved_at := if st.auto_approve_followups then some now else none,
                edited_body := none, rejection_reason := "",
                smartlead_campaign_id := latest.smartlead_campaign_id,
                smartlead_lead_id := latest.smartlead_lead_id,
                created_at := now, updated_at := now }
            (addActivity
              { db with
                drafts := db.drafts ++ [new_draft],
                next_draft_id := db.next_draft_id + 1 }
              { prospect_id := some p.id, action := "followup_composed",
                channel := some Channel.email,
                details := "step " ++ toString next_step, created_at := now },
             .composedOne)

/-- `check_sequence_progression`: one scheduling pass over every prospect in
`sent` status, in rowid order, against one shared session; returns the
updated store and the (composed, replied, skipped) summary. -/
def check_sequence_progression (env : SeqEnv) (st : Settings) (now : Int)
    (db : DB) : DB × Nat × Nat × Nat :=
  (db.prospects.filter (fun p => p.status == ProspectStatus.sent)).foldl
    (fun acc p =>
      match processSentProspect env st now acc.1 p with
      | (db1, .composedOne) => (db1, acc.2.1 + 1, acc.2.2.1, acc.2.2.2)
      | (db1, .repliedOne) => (db1, acc.2.1, acc.2.2.1 + 1, acc.2.2.2)
      | (db1, .skippedOne) => (db1, acc.2.1, acc.2.2.1, acc.2.2.2 + 1))
    (db, 0, 0, 0)

/-- Pending drafts stored for one (prospect, channel, step) key. -/
def countPendingAt (db : DB) (pid : Nat) (ch : Channel) (step : Nat) : Nat :=
  (db.drafts.filter (fun d =>
    d.prospect_id == pid && d.channel == ch && d.sequence_step == step &&
    d.approved == none)).length

/-- Python `timedelta.days` (floor by 86400) compared below a bound. -/
theorem fdiv_day_lt_iff (a k : Int) : Int.fdiv a 86400 < k ↔ a < k * 86400 := by
  rw [Int.fdiv_eq_ediv _ (by norm_num)]
  exact Int.ediv_lt_iff_lt_mul (by norm_num)

/-- Python `timedelta.days` (floor by 86400) compared at or above a bound. -/
theorem le_fdiv_day_iff (a k : Int) : k ≤ Int.fdiv a 86400 ↔ k * 86400 ≤ a := by
  rw [Int.fdiv_eq_ediv _ (by norm_num)]
  exact Int.le_ediv_iff_mul_le (by norm_num)

/-- On a store holding a single draft that is an approved email draft of the
prospect, the latest-approved query returns it. -/
theorem singleton_latest (F : List PEFirm) (A : List ActivityLog) (np nd : Nat)
    (p : Prospect) (d : OutreachDraft)
    (hp : d.prospect_id = p.id) (hch : d.channel = Channel.email)
    (happ : d.approved = some true) :
    latestApprovedEmailDraft (DB.mk F [p] [d] A np nd) p.id = some d := by
  simp [latestApprovedEmailDraft, List.filter, hp, hch, happ, maxByStep]

/-- On such a store the elapsed-days computation reads the draft's approval
timestamp. -/
theorem singleton_days (F : List PEFirm) (A : List ActivityLog) (np nd : Nat)
    (p : Prospect) (d : OutreachDraft) (now T : Int)
    (hp : d.prospect_id = p.id) (hch : d.channel = Channel.email)
    (happ : d.approved = some true) (hts : d.approved_at = some T) :
    days_since_last_send (DB.mk F [p] [d] A np nd) p.id now
      = Int.fdiv (now - T) 86400 := by
  simp [days_since_last_send, List.filter, hp, hch, happ, maxByApprovedAt, hts]

/-- On such a store no pending draft exists at any step. -/
theorem singleton_no_pending (F : List PEFirm) (A : List ActivityLog) (np nd : Nat)
    (p : Prospect) (d : OutreachDraft) (pid step : Nat)
    (happ : d.approved = some true) :
    pendingNextExists (DB.mk F [p] [d] A np nd) pid step = false := by
  simp [pendingNextExists, happ]

/-- `handle_reply` never touches the drafts table. -/
theorem handle_reply_drafts (db : DB) (pid : Nat) (now : Int) :
    (handle_reply db pid now).drafts = db.drafts := by
  unfold handle_reply
  split <;> rfl

/-- Any draft present after one pass iteration was already stored or belongs
to the processed prospect. -/
theorem processSentProspect_drafts_subset (env : SeqEnv) (st : Settings)
    (now : Int) (db : DB) (p : Prospect) :
    ∀ x, x ∈ (processSentProspect env st now db p).1.drafts →
      x ∈ db.drafts ∨ x.prospect_id = p.id := by
  intro x hx
  simp only [processSentProspect] at hx
  split at hx
  · exact Or.inl hx
  · split at hx
    · exact Or.inl hx
    · split at hx
      · exact Or.inl hx
      · split at hx
        · exact Or.inl hx
        · split at hx
          · rw [handle_reply_drafts] at hx
            exact Or.inl hx
          · split at hx
            · exact Or.inl hx
            · split at hx
              · exact Or.inl hx
              · simp only [addActivity, List.mem_append] at hx
                rcases hx with hx | hx
                · exact Or.inl hx
                · rcases List.mem_singleton.mp hx with rfl
                  exact Or.inr rfl

/-- Any draft present after a full pass was already stored or belongs to one
of the prospects the pass iterated over. -/
theorem seq_fold_drafts (env : SeqEnv) (st : Settings) (now : Int) :
    ∀ (ps : List Prospect) (acc : DB × Nat × Nat × Nat) (x : OutreachDraft),
      x ∈ (ps.foldl (fun acc p =>
        match processSentProspect env st now acc.1 p with
        | (db1, .composedOne) => (db1, acc.2.1 + 1, acc.2.2.1, acc.2.2.2)
        | (db1, .repliedOne) => (db1, acc.2.1, acc.2.2.1 + 1, acc.2.2.2)
        | (db1, .skippedOne) => (db1, acc.2.1, acc.2.2.1, acc.2.2.2 + 1)) acc).1.drafts →
      x ∈ acc.1.drafts ∨ ∃ q, q ∈ ps ∧ x.prospect_id = q.id := by
  intro ps
  induction ps with
  | nil =>
    intro acc x hx
    exact Or.inl hx
  | cons a t ih =>
    intro acc x hx
    rw [List.foldl_cons] at hx
    rcases ih _ x hx with h1 | ⟨q, hq, hpid⟩
    · have hsub := processSentProspect_drafts_subset env st now acc.1 a
      rcases hout : processSentProspect env st now acc.1 a with ⟨db1, oc⟩
      rw [hout] at h1
      have hx1 : x ∈ db1.drafts := by
        rcases oc <;> simpa using h1
      rcases hsub x (by rw [hout]; exact hx1) with h2 | h2
      · exact Or.inl h2
      · exact Or.inr ⟨a, List.mem_cons_self a t, h2⟩
    · exact Or.inr ⟨q, List.mem_cons_of_mem a hq, hpid⟩

/-- Drafts created by a pass belong to prospects that were in `sent` status
when the pass started. -/
theorem pass_composes_only_for_sent (env : SeqEnv) (st : Settings) (now : Int)
    (db : DB) :
    ∀ x, x ∈ (check_sequence_progression env st now db).1.drafts →
      x ∈ db.drafts ∨ ∃ q, q ∈ db.prospects ∧ q.status = ProspectStatus.sent ∧
        x.prospect_id = q.id := by
  intro x hx
  rcases seq_fold_drafts env st now
      (db.prospects.filter (fun p => p.status == ProspectStatus.sent))
      (db, 0, 0, 0) x hx with h | ⟨q, hq, hpid⟩
  · exact Or.inl h
  · rcases List.mem_filter.mp hq with ⟨hmem, hst⟩
    exact Or.inr ⟨q, hmem, by simpa using hst, hpid⟩

/-- C2: for a sent prospect whose only draft is its approved step-1 email
draft, approved at time T, under the default delays "3,5,7", absent a reply,
with dossier, AI credential and composition available: a pass run before
T+3 days composes nothing and counts the prospect skipped (store unchanged),
and a pass run at or after T+3 days returns counts (composed 1, replied 0,
skipped 0) with exactly one pending step-2 email draft stored. -/
theorem sequence_step2_delay_gate :
    ∀ (env : SeqEnv) (st : Settings) (now T : Int) (F : List PEFirm)
      (A : List ActivityLog) (np nd : Nat) (p : Prospect) (d : OutreachDraft)
      (su bo : String),
      p.status = ProspectStatus.sent →
      p.dossier ≠ "" →
      st.anthropic_api_key ≠ "" →
      st.sequence_step_delays = "3,5,7" →
      st.auto_approve_followups = false →
      d.prospect_id = p.id →
      d.channel = Channel.email →
      d.sequence_step = 1 →
      d.approved = some true →
      d.approved_at = some T →
      replyDetected env d = false →
      env.compose_email p.dossier 2
        (some ("Subject: " ++ d.subject ++ "\n\n" ++ pyOrStr d.edited_body d.body))
        = Except.ok (su, bo) →
      (now < T + 3 * 86400 →
        check_sequence_progression env st now (DB.mk F [p] [d] A np nd)
          = (DB.mk F [p] [d] A np nd, 0, 0, 1)) ∧
      (T + 3 * 86400 ≤ now →
        (check_sequence_progression env st now (DB.mk F [p] [d] A np nd)).2
            = (1, 0, 0) ∧
        countPendingAt
          (check_sequence_progression env st now (DB.mk F [p] [d] A np nd)).1
          p.id Channel.email 2 = 1) := by
  intro env st now T F A np nd p d su bo hsent hdos hkey hdel hauto hp hch hs1
    happ hts hnorep hcomp
  have hlat := singleton_latest F A np nd p d hp hch happ
  have hdays := singleton_days F A np nd p d now T hp hch happ hts
  have hpend := singleton_no_pending F A np nd p d p.id 2 happ
  have hdelays : get_step_delays st.sequence_step_delays = [3, 5, 7] := by
    rw [hdel]; decide
  have hneed : delayNeeded [3, 5, 7] 1 = 3 := by decide
  constructor
  · intro hnow
    have hlt : Int.fdiv (now - T) 86400 < 3 := by
      rw [fdiv_day_lt_iff]; omega
    have hproc : processSentProspect env st now (DB.mk F [p] [d] A np nd) p
        = (DB.mk F [p] [d] A np nd, SeqOutcome.skippedOne) := by
      simp [processSentProspect, hlat, hs1, MAX_SEQUENCE_STEPS, hpend, hdays,
        hdelays, hneed, hlt]
    simp [check_sequence_progression, hsent, hproc]
  · intro hnow
    have hge : ¬ (Int.fdiv (now - T) 86400 < 3) := by
      rw [not_lt, le_fdiv_day_iff]; omega
    have hproc : processSentProspect env st now (DB.mk F [p] [d] A np nd) p
        = (addActivity
            { DB.mk F [p] [d] A np nd with
              drafts := [d] ++ [{
                id := nd, prospect_id := p.id, channel := Channel.email,
                sequence_step := 2, subject := su, body := bo,
                approved := none, approved_at := none, edited_body := none,
                rejection_reason := "",
                smartlead_campaign_id := d.smartlead_campaign_id,
                smartlead_lead_id := d.smartlead_lead_id,
                created_at := now, updated_at := now }],
              next_draft_id := nd + 1 }
            { prospect_id := some p.id, action := "followup_composed",
              channel := some Channel.email, details := "step " ++ toString 2,
              created_at := now },
           SeqOutcome.composedOne) := by
      simp [processSentProspect, hlat, hs1, MAX_SEQUENCE_STEPS, hpend, hdays,
        hdelays, hneed, hge, hnorep, hdos, hkey, hcomp, hauto]
    constructor
    · simp [check_sequence_progression, hsent, hproc]
    · simp [check_sequence_progression, hsent, hproc, countPendingAt,
        addActivity, List.filter, happ]

/-- Closed witness for the C2 theorem: at 3 days past approval, the pass
composes exactly one pending step-2 draft. -/
theorem sequence_step2_delay_gate_witness :
    (check_sequence_progression ⟨fun _ _ => none, fun _ _ _ => Except.ok ("s2", "b2")⟩
        ⟨"key", "sl", 40, 65, "3,5,7", false⟩ (100 + 3 * 86400)
        (DB.mk [] [exProspect] [exApprovedDraft] [] 2 2)).2 = (1, 0, 0) ∧
    countPendingAt
      (check_sequence_progression ⟨fun _ _ => none, fun _ _ _ => Except.ok ("s2", "b2")⟩
        ⟨"key", "sl", 40, 65, "3,5,7", false⟩ (100 + 3 * 86400)
        (DB.mk [] [exProspect] [exApprovedDraft] [] 2 2)).1 1 Channel.email 2 = 1 := by
  have h := (sequence_step2_delay_gate
    ⟨fun _ _ => none, fun _ _ _ => Except.ok ("s2", "b2")⟩
    ⟨"key", "sl", 40, 65, "3,5,7", false⟩ (100 + 3 * 86400) 100
    [] [] 2 2 exProspect exApprovedDraft "s2" "b2"
    (by decide) (by decide) (by decide) (by decide) (by decide)
    (by decide) (by decide) (by decide) (by decide) (by decide)
    (by decide) rfl).2 (by omega)
  simpa [exProspect] using h

/-- C3: when the delivery-status poll of a sent prospect's latest approved,
delivery-tracked draft reports a reply, the pass marks the prospect replied,
composes nothing for it, and counts it under replied; and a pass only ever
creates drafts for prospects that were in sent status, so a replied prospect
is never again considered for step composition. -/
theorem reply_shortcircuit_and_exclusion :
    ∀ (env : SeqEnv) (st : Settings) (now T : Int) (F : List PEFirm)
      (A : List ActivityLog) (np nd : Nat) (p : Prospect) (d : OutreachDraft)
      (cid lid : String) (status : SLStatus),
      p.status = ProspectStatus.sent →
      d.prospect_id = p.id →
      d.channel = Channel.email →
      d.sequence_step < MAX_SEQUENCE_STEPS →
      d.approved = some true →
      d.approved_at = some T →
      d.smartlead_campaign_id = some cid →
      d.smartlead_lead_id = some lid →
      cid ≠ "" →
      lid ≠ "" →
      env.fetch_lead_status cid lid = some status →
      has_reply status = true →
      ¬ (Int.fdiv (now - T) 86400
          < delayNeeded (get_step_delays st.sequence_step_delays) d.sequence_step) →
      (check_sequence_progression env st now (DB.mk F [p] [d] A np nd)
          = (handle_reply (DB.mk F [p] [d] A np nd) p.id now, 0, 1, 0)) ∧
      ((getProspect
          (check_sequence_progression env st now (DB.mk F [p] [d] A np nd)).1
          p.id).map (fun q => q.status) = some ProspectStatus.replied) ∧
      ((check_sequence_progression env st now (DB.mk F [p] [d] A np nd)).1.drafts
          = [d]) ∧
      (∀ (db2 : DB) (x : OutreachDraft),
        x ∈ (check_sequence_progression env st now db2).1.drafts →
        x ∈ db2.drafts ∨ ∃ q, q ∈ db2.prospects ∧
          q.status = ProspectStatus.sent ∧ x.prospect_id = q.id) := by
  intro env st now T F A np nd p d cid lid status hsent hp hch hs4 happ hts
    hcid hlid hcidne hlidne henv hrep htime
  have hlat := singleton_latest F A np nd p d hp hch happ
  have hdays := singleton_days F A np nd p d now T hp hch happ hts
  have hpend := singleton_no_pending F A np nd p d p.id (d.sequence_step + 1) happ
  have hns : ¬ (d.sequence_step ≥ MAX_SEQUENCE_STEPS) := Nat.not_le.mpr hs4
  have hrd : replyDetected env d = true := by
    simp [replyDetected, hcid, hlid, hcidne, hlidne, henv, hrep]
  have hproc : processSentProspect env st now (DB.mk F [p] [d] A np nd) p
      = (handle_reply (DB.mk F [p] [d] A np nd) p.id now,
         SeqOutcome.repliedOne) := by
    simp [processSentProspect, hlat, hns, hpend, hdays, htime, hrd]
  have hpass : check_sequence_progression env st now (DB.mk F [p] [d] A np nd)
      = (handle_reply (DB.mk F [p] [d] A np nd) p.id now, 0, 1, 0) := by
    simp [check_sequence_progression, hsent, hproc]
  refine ⟨hpass, ?_, ?_, ?_⟩
  · rw [hpass]
    simp [handle_reply, getProspect, updateProspect, addActivity]
  · rw [hpass]
    exact handle_reply_drafts (DB.mk F [p] [d] A np nd) p.id now
  · intro db2 x hx
    exact pass_composes_only_for_sent env st now db2 x hx

/-- Fixture draft carrying delivery identifiers. -/
def exTrackedDraft : OutreachDraft :=
  { exApprovedDraft with
    smartlead_campaign_id := some "camp-1", smartlead_lead_id := some "lead-1" }

/-- Closed witness for the C3 theorem: a reply-indicating payload marks the
fixture prospect replied. -/
theorem reply_shortcircuit_and_exclusion_witness :
    (getProspect
        (check_sequence_progression ⟨fun _ _ => some ⟨true, 1, true⟩,
            fun _ _ _ => Except.ok ("s", "b")⟩
          ⟨"key", "sl", 40, 65, "3,5,7", false⟩ (100 + 5 * 86400)
          (DB.mk [] [exProspect] [exTrackedDraft] [] 2 2)).1
        1).map (fun q => q.status) = some ProspectStatus.replied := by
  have h := (reply_shortcircuit_and_exclusion
    ⟨fun _ _ => some ⟨true, 1, true⟩, fun _ _ _ => Except.ok ("s", "b")⟩
    ⟨"key", "sl", 40, 65, "3,5,7", false⟩ (100 + 5 * 86400) 100
    [] [] 2 2 exProspect exTrackedDraft "camp-1" "lead-1" ⟨true, 1, true⟩
    (by decide) (by decide) (by decide) (by decide) (by decide)
    (by decide) (by decide) (by decide) (by decide) (by decide)
    (by decide) (by decide) (by decide)).2.1
  simpa [exProspect] using h

/-- C10: a sent prospect that passes the approved-draft, max-step,
pending-next-draft, delay and reply checks is still counted skipped, with no
next-step draft created and the store unchanged, whenever its dossier is
empty or the AI credential is not configured. -/
theorem compose_gap_skips :
    ∀ (env : SeqEnv) (st : Settings) (now T : Int) (F : List PEFirm)
      (A : List ActivityLog) (np nd : Nat) (p : Prospect) (d : OutreachDraft),
      p.status = ProspectStatus.sent →
      d.prospect_id = p.id →
      d.channel = Channel.email →
      d.sequence_step < MAX_SEQUENCE_STEPS →
      d.approved = some true →
      d.approved_at = some T →
      replyDetected env d = false →
      ¬ (Int.fdiv (now - T) 86400
          < delayNeeded (get_step_delays st.sequence_step_delays) d.sequence_step) →
      (p.dossier = "" ∨ st.anthropic_api_key = "") →
      check_sequence_progression env st now (DB.mk F [p] [d] A np nd)
        = (DB.mk F [p] [d] A np nd, 0, 0, 1) := by
  intro env st now T F A np nd p d hsent hp hch hs4 happ hts hnorep htime hmiss
  have hlat := singleton_latest F A np nd p d hp hch happ
  have hdays := singleton_days F A np nd p d now T hp hch happ hts
  have hpend := singleton_no_pending F A np nd p d p.id (d.sequence_step + 1) happ
  have hns : ¬ (d.sequence_step ≥ MAX_SEQUENCE_STEPS) := Nat.not_le.mpr hs4
  have hproc : processSentProspect env st now (DB.mk F [p] [d] A np nd) p
      = (DB.mk F [p] [d] A np nd, SeqOutcome.skippedOne) := by
    rcases hmiss with hm | hm <;>
      simp [processSentProspect, hlat, hns, hpend, hdays, htime, hnorep, hm]
  simp [check_sequence_progression, hsent, hproc]

/-- Fixture prospect with an empty dossier. -/
def exProspectNoDossier : Prospect := { exProspect with dossier := "" }

/-- Closed witness for the C10 theorem: the empty-dossier fixture prospect is
skipped even though every scheduling check passes. -/
theorem compose_gap_skips_witness :
    check_sequence_progression ⟨fun _ _ => none, fun _ _ _ => Except.ok ("s", "b")⟩
        ⟨"key", "sl", 40, 65, "3,5,7", false⟩ (100 + 5 * 86400)
        (DB.mk [] [exProspectNoDossier] [exApprovedDraft] [] 2 2)
      = (DB.mk [] [exProspectNoDossier] [exApprovedDraft] [] 2 2, 0, 0, 1) :=
  compose_gap_skips
    ⟨fun _ _ => none, fun _ _ _ => Except.ok ("s", "b")⟩
    ⟨"key", "sl", 40, 65, "3,5,7", false⟩ (100 + 5 * 86400) 100
    [] [] 2 2 exProspectNoDossier exApprovedDraft
    (by decide) (by decide) (by decide) (by decide) (by decide)
    (by decide) (by decide) (by decide) (Or.inl (by decide))

/- ### Scout pipeline (`amida_agent/scout/pipeline.py` and the research
helpers it calls) -/

/-- The structured fields of `parse_profile_data` that the pipeline reads. -/
structure Profile where
  first_name : String
  last_name : String
  full_name : String
  title : String
  current_company : String
  skills : String
  personal_emails : List String
deriving DecidableEq, Repr

/-- A `find_email` hit (`hunter.io` email + confidence). -/
structure EmailInfo where
  email : String
  score : Nat
deriving DecidableEq, Repr

/-- External services and research helpers used by the pipeline:
`fetch_linkedin_profile ∘ parse_profile_data` (Proxycurl, `none` on missing
credential or non-200), `find_email` (Hunter), `fetch_company_profile ∘
parse_company_data` (Proxycurl company), the dossier/score assembly of
`dossier_builder`, and the AI composer. -/
structure ScoutEnv where
  fetch_linkedin_profile : String → Option Profile
  find_email : String → String → String → Option EmailInfo
  fetch_company_profile : String → Option String
  build_company_context : PEFirm → Option String → String
  score_relevance : Profile → Option String → Nat
  build_dossier : Profile → Option String → Option EmailInfo → String
  compose_email : String → Nat → Option String → Except String (String × String)

/-- `classify_role_type` from `research/enricher.py`. -/
def classify_role_type (title skills : String) : RoleType :=
  let t := pyLower title.toList
  let s := pyLower skills.toList
  if ["chief technology", "cto"].any (fun kw => subIn kw.toList t) then
    RoleType.cto
  else if ["chief data", "cdo"].any (fun kw => subIn kw.toList t) then
    RoleType.cdo
  else if ["head of analytics", "analytics lead", "analytics director"].any
      (fun kw => subIn kw.toList t) then
    RoleType.head_of_analytics
  else if ["ai ", "artificial intelligence", "machine learning", "ml ",
      "head of ai", "ai lead", "ai director", "vp ai"].any
      (fun kw => subIn kw.toList t) then
    RoleType.ai_lead
  else if ["data science", "data lead", "data director", "head of data",
      "vp data", "data strategy"].any (fun kw => subIn kw.toList t) then
    RoleType.data_lead
  else if ["machine learning", "deep learning", "ai", "data science", "nlp",
      "tensorflow", "pytorch"].any (fun sk => subIn sk.toList s) then
    RoleType.ai_lead
  else RoleType.other

/-- Python `str.removeprefix`. -/
def chopLeading (pre s : List Char) : List Char :=
  if listStarts pre s then s.drop pre.length else s

/-- `domain_from_website` from `research/email_finder.py`. -/
def domain_from_website (website : String) : String :=
  let domain := pyStrip (pyLower website.toList)
  let domain := chopLeading "https://".toList domain
  let domain := chopLeading "http://".toList domain
  let domain := chopLeading "www.".toList domain
  String.mk (domain.takeWhile (fun c => c != '/'))

example : domain_from_website "https://www.Nordic.com/about" = "nordic.com" := by decide

/-- The observable external calls of one pipeline run. -/
inductive Effect
  | enrichCall (url : String)
  | emailLookup (first last domain : String)
  | companyFetch (url : String)
  | composeCall (step : Nat)
  | notifyCall
deriving DecidableEq, Repr

/-- The post-save fixup query: link the most recently inserted
`auto_discovered` activity that has no prospect yet (`order_by id desc`,
first row) to the new prospect. -/
def linkFirstMatch : List ActivityLog → Nat → List ActivityLog
  | [], _ => []
  | a :: rest, pid =>
    if a.prospect_id == none && a.action == "auto_discovered" then
      { a with prospect_id := some pid } :: rest
    else a :: linkFirstMatch rest pid

/-- Apply the fixup over the table in rowid-descending order. -/
def linkLatestAutoDiscovered (db : DB) (pid : Nat) : DB :=
  { db with activities := (linkFirstMatch db.activities.reverse pid).reverse }

/-- Steps 4–10 of `process_discovered_lead`, run after a successful
enrichment: PE-firm matching by substring (first listing-order match wins),
best-effort email discovery, best-effort company context, classification and
full scoring, persisting the new prospect, the activity-linkage fixup,
optional step-1 auto-draft (composition failure is caught, leaving the
prospect `ready`), and the high-score notification. -/
def pipelineAfterEnrich (env : ScoutEnv) (st : Settings) (now : Int) (db : DB)
    (linkedin_url source : String) (firm_id0 : Option Nat) (profile : Profile) :
    Option Nat × DB × List Effect :=
  -- `if not firm_id:` — Python truthiness, so a firm id of 0 also triggers
  -- the substring search, and the original falsy value is kept when no firm
  -- name matches
  let firmPair : Option Nat × Option PEFirm :=
    if firm_id0 == none || firm_id0 == some 0 then
      match db.firms.find? (fun f =>
          subIn (pyLower f.name.toList) (pyLower profile.current_company.toList)) with
      | some f => (some f.id, some f)
      | none => (firm_id0, none)
    else
      (firm_id0,
       match firm_id0 with
       | some fid => db.firms.find? (fun f => f.id == fid)
       | none => none)
  let emailTriple : Option String × Option EmailInfo × List Effect :=
    match profile.personal_emails with
    | e :: _ => (some e, none, [])
    | [] =>
      match firmPair.2 with
      | some f =>
        if f.website != "" then
          let domain := domain_from_website f.website
          match env.find_email profile.first_name profile.last_name domain with
          | some info =>
            (some info.email, some info,
             [Effect.emailLookup profile.first_name profile.last_name domain])
          | none =>
            (none, none,
             [Effect.emailLookup profile.first_name profile.last_name domain])
        else (none, none, [])
      | none => (none, none, [])
  let companyPair : Option String × List Effect :=
    match firmPair.2 with
    | some f =>
      if f.linkedin_url != "" then
        match env.fetch_company_profile f.linkedin_url with
        | some cp => (some cp, [Effect.companyFetch f.linkedin_url])
        | none => (none, [Effect.companyFetch f.linkedin_url])
      else (none, [])
    | none => (none, [])
  let company_context : Option String :=
    match firmPair.2 with
    | some f => some (env.build_company_context f companyPair.1)
    | none => none
  let role_type := classify_role_type profile.title profile.skills
  let relevance := env.score_relevance profile company_context
  let dossier := env.build_dossier profile company_context emailTriple.2.1
  let prospect : Prospect :=
    { id := db.next_prospect_id, pe_firm_id := firmPair.1,
      first_name := profile.first_name, last_name := profile.last_name,
      full_name := profile.full_name, title := profile.title,
      role_type := role_type, linkedin_url := linkedin_url,
      email := emailTriple.1, relevance_score := relevance,
      dossier := dossier, status := ProspectStatus.ready,
      source := source, created_at := now, updated_at := now }
  let db1 := { db with
    prospects := db.prospects ++ [prospect],
    next_prospect_id := db.next_prospect_id + 1 }
  let db2 := addActivity db1
    { prospect_id := none, action := "auto_discovered", channel := none,
      details := "pre and full score", created_at := now }
  let db3 := linkLatestAutoDiscovered db2 prospect.id
  let draftResult : DB × List Effect :=
    if st.anthropic_api_key != "" then
      match env.compose_email dossier 1 none with
      | .ok (subject, body) =>
        let db4 := { db3 with
          drafts := db3.drafts ++ [{
            id := db3.next_draft_id, prospect_id := prospect.id,
            channel := Channel.email, sequence_step := 1,
            subject := subject, body := body,
            approved := none, approved_at := none, edited_body := none,
            rejection_reason := "", smartlead_campaign_id := none,
            smartlead_lead_id := none, created_at := now, updated_at := now }],
          next_draft_id := db3.next_draft_id + 1 }
        let db5 :=
          match getProspect db4 prospect.id with
          | some q =>
            updateProspect db4
              { q with status := ProspectStatus.drafted, updated_at := now }
          | none => db4
        (addActivity db5
          { prospect_id := some prospect.id, action := "email_drafted",
            channel := some Channel.email, details := "Auto-drafted step 1",
            created_at := now },
         [Effect.composeCall 1])
      | .error _ => (db3, [Effect.composeCall 1])
    else (db3, [])
  let notifyEffects :=
    if should_notify st.notification_threshold relevance then [Effect.notifyCall]
    else []
  (some prospect.id, draftResult.1, emailTriple.2.2 ++ companyPair.2
    ++ draftResult.2 ++ notifyEffects)

/-- `process_discovered_lead`: dedup → pre-score gate → enrich → the rest of
the pipeline. Returns the prospect id (or `none` when gated or enrichment
came back empty), the updated store, and the external calls performed. -/
def process_discovered_lead (env : ScoutEnv) (st : Settings) (now : Int)
    (db : DB) (linkedin_url title firm_name source : String)
    (firm_id0 : Option Nat) (has_hiring_signal has_news_mention : Bool) :
    Option Nat × DB × List Effect :=
  match db.prospects.find? (fun q => q.linkedin_url == linkedin_url) with
  | some existing => (some existing.id, db, [])
  | none =>
    let score := (pre_score title firm_name source has_hiring_signal has_news_mention).fst
    if ¬ should_enrich st.enrichment_threshold score then (none, db, [])
    else
      match env.fetch_linkedin_profile linkedin_url with
      | none => (none, db, [Effect.enrichCall linkedin_url])
      | some profile =>
        let after := pipelineAfterEnrich env st now db linkedin_url source firm_id0 profile
        (after.1, after.2.1, Effect.enrichCall linkedin_url :: after.2.2)

/-- Replacing-by-id maps over rows whose id differs are the identity. -/
theorem map_update_skip (b : Prospect) (i : Nat) :
    ∀ l : List Prospect, (∀ x ∈ l, x.id ≠ i) →
      l.map (fun x => if x.id == i then b else x) = l := by
  intro l h
  induction l with
  | nil => rfl
  | cons a t ih =>
    have hne : ¬ ((a.id == i) = true) := by
      simpa using h a (List.mem_cons_self a t)
    simp only [List.map_cons, if_neg hne]
    rw [ih (fun x hx => h x (List.mem_cons_of_mem a hx))]

/-- Shape of a successful post-enrichment run: it reports the fresh
auto-increment id and appends exactly one prospect row carrying the
discovered profile reference (possibly advanced to `drafted` by the
auto-draft step). -/
theorem pipelineAfterEnrich_shape (env : ScoutEnv) (st : Settings) (now : Int)
    (db : DB) (url source : String) (fid0 : Option Nat) (profile : Profile)
    (hwf : ∀ q ∈ db.prospects, q.id < db.next_prospect_id) :
    (pipelineAfterEnrich env st now db url source fid0 profile).1
        = some db.next_prospect_id ∧
    ∃ P : Prospect, P.linkedin_url = url ∧ P.id = db.next_prospect_id ∧
      (pipelineAfterEnrich env st now db url source fid0 profile).2.1.prospects
        = db.prospects ++ [P] := by
  have hfind : db.prospects.find? (fun q => q.id == db.next_prospect_id) = none :=
    List.find?_eq_none.mpr (fun q hq => by simpa using Nat.ne_of_lt (hwf q hq))
  have hne : ∀ x ∈ db.prospects, x.id ≠ db.next_prospect_id :=
    fun x hx => Nat.ne_of_lt (hwf x hx)
  constructor
  · rfl
  · simp only [pipelineAfterEnrich]
    split
    · -- anthropic key configured
      split
      · -- composition succeeded: the prospect is advanced to drafted
        simp only [getProspect, linkLatestAutoDiscovered, addActivity,
          List.find?_append, hfind, Option.none_or, List.find?_cons,
          beq_self_eq_true, updateProspect, List.map_append, List.map_cons,
          List.map_nil, if_true]
        rw [map_update_skip _ _ db.prospects hne]
        exact ⟨_, rfl, rfl, rfl⟩
      · -- composition raised: prospect stays ready
        exact ⟨_, rfl, rfl, rfl⟩
    · -- no key: prospect stays ready
      exact ⟨_, rfl, rfl, rfl⟩

/-- A call that finds an existing prospect with the same profile reference
returns its id with no store change and no external calls (the dedup
short-circuit of `process_discovered_lead`). -/
theorem process_duplicate (env : ScoutEnv) (st : Settings) (now : Int) (db : DB)
    (url title firm_name source : String) (fid0 : Option Nat) (hh hn : Bool)
    (existing : Prospect)
    (hfind : db.prospects.find? (fun q => q.linkedin_url == url) = some existing) :
    process_discovered_lead env st now db url title firm_name source fid0 hh hn
      = (some existing.id, db, []) := by
  simp [process_discovered_lead, hfind]

/-- C6: a fresh discovered lead whose pre-score is strictly below the
configured enrichment threshold is dropped (`none`) with no external call at
all — in particular no enrichment call; and in every run whatsoever, an
enrichment call implies the pre-score reached the threshold. -/
theorem prescore_gate_blocks_enrichment :
    ∀ (env : ScoutEnv) (st : Settings) (now : Int) (db : DB)
      (url title firm_name source : String) (fid0 : Option Nat) (hh hn : Bool),
      (db.prospects.find? (fun q => q.linkedin_url == url) = none →
        (pre_score title firm_name source hh hn).fst < st.enrichment_threshold →
        process_discovered_lead env st now db url title firm_name source fid0 hh hn
          = (none, db, [])) ∧
      (∀ u, Effect.enrichCall u
          ∈ (process_discovered_lead env st now db url title firm_name source fid0 hh hn).2.2 →
        st.enrichment_threshold ≤ (pre_score title firm_name source hh hn).fst) := by
  intro env st now db url title firm_name source fid0 hh hn
  constructor
  · intro hfresh hlt
    have hgate : should_enrich st.enrichment_threshold
        (pre_score title firm_name source hh hn).fst = false := by
      simp only [should_enrich, decide_eq_false_iff_not, not_le]
      omega
    simp [process_discovered_lead, hfresh, hgate]
  · intro u hu
    by_cases hge : st.enrichment_threshold ≤ (pre_score title firm_name source hh hn).fst
    · exact hge
    · exfalso
      have hgate : should_enrich st.enrichment_threshold
          (pre_score title firm_name source hh hn).fst = false := by
        simp only [should_enrich, decide_eq_false_iff_not, not_le]
        omega
      rcases hfind : db.prospects.find? (fun q => q.linkedin_url == url) with _ | ex
      · simp [process_discovered_lead, hfind, hgate] at hu
      · simp [process_discovered_lead, hfind] at hu

/-- Closed witness for the C6 theorem: a low-scoring fresh lead is dropped
without any external call. -/
theorem prescore_gate_blocks_enrichment_witness :
    process_discovered_lead
      ⟨fun _ => none, fun _ _ _ => none, fun _ => none, fun _ _ => "",
       fun _ _ => 0, fun _ _ _ => "", fun _ _ _ => Except.ok ("", "")⟩
      ⟨"key", "sl", 40, 65, "3,5,7", false⟩ 0 (DB.mk [] [] [] [] 1 1)
      "https://linkedin.com/in/low" "Janitor" "" "unknown" none false false
      = (none, DB.mk [] [] [] [] 1 1, []) :=
  (prescore_gate_blocks_enrichment _ _ _ _ _ _ _ _ _ _ _).1 rfl (by decide)

/-- C4: re-discovering the same external profile reference is idempotent —
a call that finds an existing prospect with that `linkedin_url` returns its
id, leaves the store untouched and performs no external calls; and after a
fresh, successfully enriched first call, the second call returns exactly the
id the first call created, with no further store change or external work. -/
theorem rediscovery_idempotent :
    ∀ (env : ScoutEnv) (st : Settings) (now : Int) (db : DB)
      (url title firm_name source : String) (fid0 : Option Nat) (hh hn : Bool),
      (∀ existing, db.prospects.find? (fun q => q.linkedin_url == url) = some existing →
        process_discovered_lead env st now db url title firm_name source fid0 hh hn
          = (some existing.id, db, [])) ∧
      (db.prospects.find? (fun q => q.linkedin_url == url) = none →
       (∀ q ∈ db.prospects, q.id < db.next_prospect_id) →
       should_enrich st.enrichment_threshold
         (pre_score title firm_name source hh hn).fst = true →
       ∀ profile, env.fetch_linkedin_profile url = some profile →
        (process_discovered_lead env st now db url title firm_name source fid0 hh hn).1
            = some db.next_prospect_id ∧
        process_discovered_lead env st now
            (process_discovered_lead env st now db url title firm_name source fid0 hh hn).2.1
            url title firm_name source fid0 hh hn
          = (some db.next_prospect_id,
             (process_discovered_lead env st now db url title firm_name source fid0 hh hn).2.1,
             [])) := by
  intro env st now db url title firm_name source fid0 hh hn
  constructor
  · intro existing hfind
    exact process_duplicate env st now db url title firm_name source fid0 hh hn
      existing hfind
  · intro hfresh hwf hgate profile henr
    have hfirst : process_discovered_lead env st now db url title firm_name source fid0 hh hn
        = ((pipelineAfterEnrich env st now db url source fid0 profile).1,
           (pipelineAfterEnrich env st now db url source fid0 profile).2.1,
           Effect.enrichCall url ::
             (pipelineAfterEnrich env st now db url source fid0 profile).2.2) := by
      simp [process_discovered_lead, hfresh, hgate, henr]
    obtain ⟨h1, P, hPurl, hPid, hPro⟩ :=
      pipelineAfterEnrich_shape env st now db url source fid0 profile hwf
    constructor
    · rw [hfirst]
      exact h1
    · have hfind2 : (process_discovered_lead env st now db url title firm_name
            source fid0 hh hn).2.1.prospects.find? (fun q => q.linkedin_url == url)
          = some P := by
        rw [hfirst]
        simp only [hPro, List.find?_append, hfresh, Option.none_or, List.find?_cons]
        simp [hPurl]
      rw [show (some db.next_prospect_id : Option Nat) = some P.id by rw [hPid]]
      exact process_duplicate env st now _ url title firm_name source fid0 hh hn
        P hfind2

/-- Closed witness for the C4 theorem: re-processing the fixture prospect's
profile reference returns its id and changes nothing. -/
theorem rediscovery_idempotent_witness :
    process_discovered_lead
      ⟨fun _ => none, fun _ _ _ => none, fun _ => none, fun _ _ => "",
       fun _ _ => 0, fun _ _ _ => "", fun _ _ _ => Except.ok ("", "")⟩
      ⟨"key", "sl", 40, 65, "3,5,7", false⟩ 0 exDB
      "https://linkedin.com/in/erik" "Head of AI" "" "people_search" none false false
      = (some 1, exDB, []) :=
  (rediscovery_idempotent _ _ _ _ _ _ _ _ _ _ _).1 exProspect (by decide)

/- ### The at-most-one-pending-draft invariant -/

/-- Two draft rows that are both pending and share the
(prospect, channel, step) key. -/
def pendingKeyClash (x y : OutreachDraft) : Prop :=
  x.approved = none ∧ y.approved = none ∧ x.prospect_id = y.prospect_id ∧
  x.channel = y.channel ∧ x.sequence_step = y.sequence_step

instance (x y : OutreachDraft) : Decidable (pendingKeyClash x y) := by
  unfold pendingKeyClash
  infer_instance

/-- The clash relation is symmetric. -/
theorem pendingKeyClash_symm : ∀ {x y : OutreachDraft},
    pendingKeyClash x y → pendingKeyClash y x := by
  intro x y ⟨h1, h2, h3, h4, h5⟩
  exact ⟨h2, h1, h3.symm, h4.symm, h5.symm⟩

/-- At most one pending draft per (prospect, channel, step): no two stored
rows clash. -/
def pendingUnique (db : DB) : Prop :=
  db.drafts.Pairwise (fun x y => ¬ pendingKeyClash x y)

instance (db : DB) : Decidable (pendingUnique db) := by
  unfold pendingUnique
  infer_instance

/-- C5 counterexample: the fixture store satisfies the invariant, but calling
`regenerate_draft` twice on the same already-decided draft creates two
pending drafts for the same (prospect, channel, step), violating it. -/
theorem pending_uniqueness_counterexample :
    pendingUnique exDB ∧
    ¬ pendingUnique (regenerate_draft ⟨fun _ _ _ => Except.ok ("rs", "rb")⟩
        ⟨"key", "sl", 40, 65, "3,5,7", false⟩ 1 300
        (regenerate_draft ⟨fun _ _ _ => Except.ok ("rs", "rb")⟩
          ⟨"key", "sl", 40, 65, "3,5,7", false⟩ 1 200 exDB)) := by
  constructor <;> decide

/-- The non-clash relation is symmetric. -/
theorem notClash_symm : Symmetric (fun x y : OutreachDraft => ¬ pendingKeyClash x y) :=
  fun _ _ h hc => h (pendingKeyClash_symm hc)

/-- One pass iteration preserves the at-most-one-pending invariant: the only
draft it may add is guarded by the pending-next-step check. -/
theorem processSentProspect_pendingUnique (env : SeqEnv) (st : Settings)
    (now : Int) (db : DB) (p : Prospect) (h : pendingUnique db) :
    pendingUnique (processSentProspect env st now db p).1 := by
  simp only [processSentProspect]
  split
  · exact h
  · split
    · exact h
    · split
      · exact h
      · rename_i latest _ _ hpendF
        split
        · exact h
        · split
          · show ((handle_reply db p.id now).drafts).Pairwise _
            rw [handle_reply_drafts]
            exact h
          · split
            · exact h
            · split
              · exact h
              · show (List.Pairwise _ (db.drafts ++ [_]))
                rw [List.pairwise_append]
                refine ⟨h, List.pairwise_singleton _ _, ?_⟩
                intro a ha b hb
                rcases List.mem_singleton.mp hb with rfl
                intro hc
                obtain ⟨hap, hbp, hpid, hch2, hstep2⟩ := hc
                have hpred : pendingNextExists db p.id (latest.sequence_step + 1)
                    = true := by
                  unfold pendingNextExists
                  rw [List.any_eq_true]
                  refine ⟨a, ha, ?_⟩
                  simp only at hpid hch2 hstep2
                  simp [hpid, hch2, hstep2, hap]
                simp [hpred] at hpendF

/-- A full pass preserves the at-most-one-pending invariant. -/
theorem pass_pendingUnique (env : SeqEnv) (st : Settings) (now : Int) :
    ∀ (ps : List Prospect) (acc : DB × Nat × Nat × Nat),
      pendingUnique acc.1 →
      pendingUnique ((ps.foldl (fun acc p =>
        match processSentProspect env st now acc.1 p with
        | (db1, .composedOne) => (db1, acc.2.1 + 1, acc.2.2.1, acc.2.2.2)
        | (db1, .repliedOne) => (db1, acc.2.1, acc.2.2.1 + 1, acc.2.2.2)
        | (db1, .skippedOne) => (db1, acc.2.1, acc.2.2.1, acc.2.2.2 + 1)) acc)).1 := by
  intro ps
  induction ps with
  | nil => intro acc hacc; exact hacc
  | cons a t ih =>
    intro acc hacc
    rw [List.foldl_cons]
    apply ih
    have hp := processSentProspect_pendingUnique env st now acc.1 a hacc
    rcases hout : processSentProspect env st now acc.1 a with ⟨db1, oc⟩
    rw [hout] at hp
    rcases oc <;> simpa using hp

/-- The post-enrichment pipeline preserves the at-most-one-pending invariant:
the auto-draft it may add belongs to the freshly created prospect id, which
no stored draft can reference. -/
theorem pipelineAfterEnrich_pendingUnique (env : ScoutEnv) (st : Settings)
    (now : Int) (db : DB) (url source : String) (fid0 : Option Nat)
    (profile : Profile)
    (hwfd : ∀ x ∈ db.drafts, x.prospect_id < db.next_prospect_id)
    (h : pendingUnique db) :
    pendingUnique (pipelineAfterEnrich env st now db url source fid0 profile).2.1 := by
  simp only [pipelineAfterEnrich]
  split
  · split
    · -- composition succeeded: one new draft for the fresh prospect id
      split
      all_goals
        show (List.Pairwise _ (db.drafts ++ [_]))
        rw [List.pairwise_append]
        refine ⟨h, List.pairwise_singleton _ _, ?_⟩
        intro a ha b hb
        rcases List.mem_singleton.mp hb with rfl
        intro hc
        obtain ⟨hap, hbp, hpid, hch2, hstep2⟩ := hc
        simp only at hpid
        exact absurd hpid (Nat.ne_of_lt (hwfd a ha))
    · exact h
  · exact h

/-- `process_discovered_lead` preserves the at-most-one-pending invariant. -/
theorem process_pendingUnique (env : ScoutEnv) (st : Settings) (now : Int)
    (db : DB) (url title firm_name source : String) (fid0 : Option Nat)
    (hh hn : Bool)
    (hwfd : ∀ x ∈ db.drafts, x.prospect_id < db.next_prospect_id)
    (h : pendingUnique db) :
    pendingUnique (process_discovered_lead env st now db url title firm_name
      source fid0 hh hn).2.1 := by
  simp only [process_discovered_lead]
  split
  · exact h
  · split
    · exact h
    · split
      · exact h
      · exact pipelineAfterEnrich_pendingUnique env st now db url source fid0 _
          hwfd h

/-- `regenerate_draft` on a pending draft preserves the at-most-one-pending
invariant: the target draft is flipped to rejected and the fresh pending
draft takes its place in the key. -/
theorem regenerate_pending_pendingUnique (cenv : ComposeEnv) (st : Settings)
    (did : Nat) (now : Int) (db : DB) (d0 : OutreachDraft)
    (hd : getDraft db did = some d0) (hp0 : d0.approved = none)
    (h : pendingUnique db) :
    pendingUnique (regenerate_draft cenv st did now db) := by
  have hd0mem : d0 ∈ db.drafts := List.mem_of_find?_eq_some hd
  simp only [regenerate_draft, hd]
  split
  · exact h
  · rename_i prospect hpros
    have hpid0 : prospect.id = d0.prospect_id := by
      have := List.find?_some hpros
      simpa using this
    split
    · exact h
    · split
      · exact h
      · split
        · exact h
        · show (List.Pairwise _ (_ ++ [_]))
          rw [List.pairwise_append]
          refine ⟨?_, List.pairwise_singleton _ _, ?_⟩
          · refine List.Pairwise.map _ ?_ h
            intro a b hab hc
            split_ifs at hc <;>
              first
                | exact absurd hc.1 (by simp)
                | exact absurd hc.2.1 (by simp)
                | exact hab hc
          · intro a ha b hb
            rcases List.mem_singleton.mp hb with rfl
            rcases List.mem_map.mp ha with ⟨y, hy, rfl⟩
            intro hc
            split_ifs at hc with hyid
            · exact absurd hc.1 (by simp)
            · obtain ⟨hap, hbp, hpid, hch2, hstep2⟩ := hc
              simp only at hpid hch2 hstep2
              have hyne : y ≠ d0 := by
                intro hEq
                rw [hEq] at hyid
                simp at hyid
              have hclash : pendingKeyClash y d0 :=
                ⟨hap, hp0, by rw [hpid, hpid0], hch2, hstep2⟩
              exact (List.Pairwise.forall notClash_symm h hy hd0mem hyne) hclash

/-- C5 (amended): pipeline auto-draft and sequence progression preserve the
at-most-one-pending-draft-per-(prospect, channel, step) invariant, and
`regenerate_draft` preserves it when invoked on a pending draft; but — per
the counterexample — regenerating an already-decided draft can create a
second pending draft for the same key, so the invariant does not hold in
every reachable state. -/
theorem pending_uniqueness_amended :
    ∀ (env : SeqEnv) (senv : ScoutEnv) (cenv : ComposeEnv) (st : Settings)
      (now : Int) (db : DB),
      (pendingUnique db →
        pendingUnique (check_sequence_progression env st now db).1) ∧
      ((∀ x ∈ db.drafts, x.prospect_id < db.next_prospect_id) →
        pendingUnique db →
        ∀ url title firm_name source fid0 hh hn,
          pendingUnique (process_discovered_lead senv st now db url title
            firm_name source fid0 hh hn).2.1) ∧
      (∀ did d0, getDraft db did = some d0 → d0.approved = none →
        pendingUnique db →
        pendingUnique (regenerate_draft cenv st did now db)) := by
  intro env senv cenv st now db
  refine ⟨?_, ?_, ?_⟩
  · intro h
    exact pass_pendingUnique env st now _ (db, 0, 0, 0) h
  · intro hwfd h url title firm_name source fid0 hh hn
    exact process_pendingUnique senv st now db url title firm_name source
      fid0 hh hn hwfd h
  · intro did d0 hd hp0 h
    exact regenerate_pending_pendingUnique cenv st did now db d0 hd hp0 h

/-- Fixture store whose only draft is pending. -/
def exDBPending : DB :=
  { exDB with drafts := [{ exApprovedDraft with approved := none, approved_at := none }] }

/-- Closed witness for the amended C5 theorem: one pass and one
pending-draft regeneration at the fixtures keep the invariant. -/
theorem pending_uniqueness_amended_witness :
    pendingUnique (check_sequence_progression
      ⟨fun _ _ => none, fun _ _ _ => Except.ok ("s", "b")⟩
      ⟨"key", "sl", 40, 65, "3,5,7", false⟩ 0 exDB).1 ∧
    pendingUnique (regenerate_draft ⟨fun _ _ _ => Except.ok ("rs", "rb")⟩
      ⟨"key", "sl", 40, 65, "3,5,7", false⟩ 1 200 exDBPending) :=
  ⟨(pending_uniqueness_amended
      ⟨fun _ _ => none, fun _ _ _ => Except.ok ("s", "b")⟩
      ⟨fun _ => none, fun _ _ _ => none, fun _ => none, fun _ _ => "",
       fun _ _ => 0, fun _ _ _ => "", fun _ _ _ => Except.ok ("", "")⟩
      ⟨fun _ _ _ => Except.ok ("rs", "rb")⟩
      ⟨"key", "sl", 40, 65, "3,5,7", false⟩ 0 exDB).1 (by decide),
   (pending_uniqueness_amended
      ⟨fun _ _ => none, fun _ _ _ => Except.ok ("s", "b")⟩
      ⟨fun _ => none, fun _ _ _ => none, fun _ => none, fun _ _ => "",
       fun _ _ => 0, fun _ _ _ => "", fun _ _ _ => Except.ok ("", "")⟩
      ⟨fun _ _ _ => Except.ok ("rs", "rb")⟩
      ⟨"key", "sl", 40, 65, "3,5,7", false⟩ 200 exDBPending).2.2
      1 { exApprovedDraft with approved := none, approved_at := none }
      (by decide) (by decide) (by decide)⟩

end Amida
